import Mathlib

/-!
# Azure DevOps SCM provider (`applicationset/services/scm_provider/azure_devops.go`)

A shallow embedding of `NewAzureDevopsProvider`, `ListRepos`, `RepoHasPath` and
`GetBranches`, followed by the properties of the discovery contract.

Conventions of the embedding:

* a Go pointer `*T` is `Option T` (`none` is the nil pointer), a Go slice is
  `Option (List T)` (`none` is the nil slice, `some []` is an empty non-nil slice);
* a Go `error` is `Option GoError` (`none` is the nil error);
* a Go function returning `(T, error)` returns the pair, exactly as in Go;
* dereferencing a nil pointer, or calling a method on a nil interface, is the
  outcome `Outcome.panicked`;
* the Azure DevOps SDK is not part of the repository: its entry points are the
  fields of `Backend` and `GitClient`, and every call made to it is recorded, in
  program order, in the `calls` field of the result.
-/

set_option linter.dupNamespace false

namespace ScmProvider

/-! ## Go runtime values -/

/-- Result of running a Go function body: it returns a value or panics. -/
inductive Outcome (α : Type) where
  | ret (a : α)
  | panicked
  deriving Repr, DecidableEq

/-- The `context.Context` handed through to the SDK (only passed along). -/
structure Context where
  id : Nat
  deriving Repr, DecidableEq

/-- The SDK struct `azuredevops.WrappedError`; all its fields are pointers.
Only the fields read by the provider or needed to tell errors apart are kept. -/
structure WrappedError where
  Message : Option String
  TypeKey : Option String
  StatusCode : Option Int
  deriving Repr, DecidableEq

/-- Dynamic values of the Go interface `error` that reach the provider. The type
assertion `err.(azuredevops.WrappedError)` succeeds on `wrapped` only: a
`*WrappedError` has a different dynamic type. -/
inductive GoError where
  | errorString (msg : String)
  | wrapped (w : WrappedError)
  | wrappedPtr (w : WrappedError)
  | other (typeName : String) (msg : String)
  deriving Repr, DecidableEq

/-- The Go call `fmt.Errorf(msg)` for a format string without verbs. -/
def fmtErrorf (msg : String) : GoError := GoError.errorString msg

/-- The SDK type `uuid.UUID`, kept as its canonical text (what `String()` prints). -/
structure UUID where
  canonical : String
  deriving Repr, DecidableEq

/-- Dynamic values stored in the field `RepositoryId interface{}`. `ListRepos`
stores the `*uuid.UUID` of the backend repository; other providers store
strings or integers. -/
inductive RepositoryIdValue where
  | nilInterface
  | uuidPtr (p : Option UUID)
  | str (s : String)
  | int (i : Int)
  deriving Repr, DecidableEq

/-- The Go call `fmt.Sprintf("%v", v)` on a `RepositoryId` value. -/
def sprintfV : RepositoryIdValue → String
  | RepositoryIdValue.nilInterface => "<nil>"
  | RepositoryIdValue.uuidPtr none => "<nil>"
  | RepositoryIdValue.uuidPtr (some u) => u.canonical
  | RepositoryIdValue.str s => s
  | RepositoryIdValue.int i => toString i

/-! ## Shared data model -/

/-- Modelled from the spec: the struct `Repository` of the shared data model
(declared in the package's `types.go`, which is not among the sources); the
field names and types are those used by `azure_devops.go`. -/
structure Repository where
  Organization : String
  Repository : String
  URL : String
  Branch : String
  SHA : String
  Labels : Option (List String)
  RepositoryId : RepositoryIdValue
  deriving Repr, DecidableEq

/-! ## SDK types (`azuredevops`, `core`, `git`) -/

/-- The SDK struct `azuredevops.Connection`. The provider only stores it and
hands it to the client constructors; it is kept as the base URL it addresses
and the personal access token it authorises with. -/
structure Connection where
  BaseUrl : String
  pat : String
  deriving Repr, DecidableEq

/-- A value of the SDK interface `core.Client`. -/
structure CoreClient where
  handle : Nat
  deriving Repr, DecidableEq

/-- The SDK struct `git.GitRepository` (fields read by `ListRepos`). -/
structure GitRepository where
  Id : Option UUID
  Name : Option String
  RemoteUrl : Option String
  DefaultBranch : Option String
  deriving Repr, DecidableEq

/-- The SDK struct `git.GitCommitRef` (field read by `GetBranches`). -/
structure GitCommitRef where
  CommitId : Option String
  deriving Repr, DecidableEq

/-- The SDK struct `git.GitBranchStats` (fields read by `GetBranches`). -/
structure GitBranchStats where
  Name : Option String
  Commit : Option GitCommitRef
  deriving Repr, DecidableEq

/-- The SDK struct `git.GitItem`; `RepoHasPath` discards it. -/
structure GitItem where
  Path : Option String
  deriving Repr, DecidableEq

/-- The SDK struct `git.GetRepositoriesArgs`; fields the provider leaves unset
are nil and omitted. -/
structure GetRepositoriesArgs where
  Project : Option String
  deriving Repr, DecidableEq

/-- The SDK struct `git.GitVersionDescriptor`; only `Version` is set. -/
structure GitVersionDescriptor where
  Version : Option String
  deriving Repr, DecidableEq

/-- The SDK struct `git.GetItemArgs`; fields the provider leaves unset are nil
and omitted. -/
structure GetItemArgs where
  RepositoryId : Option String
  Project : Option String
  Path : Option String
  VersionDescriptor : Option GitVersionDescriptor
  deriving Repr, DecidableEq

/-- The SDK struct `git.GetBranchesArgs`; fields the provider leaves unset are
nil and omitted. -/
structure GetBranchesArgs where
  RepositoryId : Option String
  Project : Option String
  deriving Repr, DecidableEq

/-- A value of the SDK interface `git.Client`: the three methods the provider
calls, each returning Go's `(pointer, error)` pair. -/
structure GitClient where
  GetRepositories : Context → GetRepositoriesArgs → Option (List GitRepository) × Option GoError
  GetItem : Context → GetItemArgs → Option GitItem × Option GoError
  GetBranches : Context → GetBranchesArgs → Option (List GitBranchStats) × Option GoError

/-- The package-level SDK functions the provider calls:
`azuredevops.NewPatConnection(url, pat)`, which cannot fail and whose way of
building the connection (URL normalisation, authorization header) is left to
the SDK, and the constructors `core.NewClient` and `git.NewClient`, each
returning Go's `(client, error)` pair; a nil client interface is `none`. -/
structure Backend where
  NewPatConnection : String → String → Connection
  coreNewClient : Context → Connection → Option CoreClient × Option GoError
  gitNewClient : Context → Option Connection → Option GitClient × Option GoError

/-- One call made to the SDK, with its arguments. -/
inductive Call where
  | NewPatConnection (url : String) (pat : String)
  | coreNewClient (ctx : Context) (connection : Connection)
  | gitNewClient (ctx : Context) (connection : Option Connection)
  | GetRepositories (ctx : Context) (args : GetRepositoriesArgs)
  | GetItem (ctx : Context) (args : GetItemArgs)
  | GetBranches (ctx : Context) (args : GetBranchesArgs)
  deriving Repr, DecidableEq

/-- What running an operation produced: the SDK calls it made, in order, and
its outcome. -/
structure Exec (α : Type) where
  calls : List Call
  out : Outcome α

/-! ## The provider -/

/-- The struct `AzureDevopsProvider`. `connection` is a pointer; `client` is a
pointer to the `core.Client` interface variable and is kept as the interface
value it points to (`none` for the zero-value provider or a nil interface). -/
structure AzureDevopsProvider where
  client : Option CoreClient
  connection : Option Connection
  organization : String
  teamProject : String
  accessToken : String
  deriving Repr, DecidableEq

/-- The function `NewAzureDevopsProvider(ctx, accessToken, org, project)`. -/
def NewAzureDevopsProvider (env : Backend) (ctx : Context) (accessToken : String)
    (org : String) (project : String) :
    Exec (Option AzureDevopsProvider × Option GoError) :=
  if accessToken = "" then
    { calls := [], out := Outcome.ret (none, some (fmtErrorf "No access token provided")) }
  else
    let url := "https://dev.azure.com/" ++ org
    let connection := env.NewPatConnection url accessToken
    let calls := [Call.NewPatConnection url accessToken, Call.coreNewClient ctx connection]
    match env.coreNewClient ctx connection with
    | (_, some err) => { calls := calls, out := Outcome.ret (none, some err) }
    | (coreClient, none) =>
      { calls := calls,
        out := Outcome.ret
          (some { organization := org, teamProject := project, accessToken := accessToken,
                  client := coreClient, connection := some connection }, none) }

/-- The loop of `ListRepos`: appends one `Repository` per backend repository to
`repos`; dereferencing a nil `Name`, `RemoteUrl` or `DefaultBranch` panics. -/
def listReposLoop (g : AzureDevopsProvider) :
    List GitRepository → List Repository → Outcome (List Repository)
  | [], repos => Outcome.ret repos
  | azureRepo :: rest, repos =>
    match azureRepo.Name, azureRepo.RemoteUrl, azureRepo.DefaultBranch with
    | some name, some remoteUrl, some defaultBranch =>
      listReposLoop g rest
        (repos ++ [{ Organization := g.organization,
                     Repository := name,
                     URL := remoteUrl,
                     Branch := defaultBranch,
                     SHA := "",
                     Labels := some [],
                     RepositoryId := RepositoryIdValue.uuidPtr azureRepo.Id }])
    | _, _, _ => Outcome.panicked

/-- The method `ListRepos(ctx, cloneProtocol)`. -/
def ListRepos (env : Backend) (g : AzureDevopsProvider) (ctx : Context)
    (cloneProtocol : String) : Exec (Option (List Repository) × Option GoError) :=
  let _ := cloneProtocol
  let c0 := [Call.gitNewClient ctx g.connection]
  match env.gitNewClient ctx g.connection with
  | (_, some err) => { calls := c0, out := Outcome.ret (none, some err) }
  | (none, none) => { calls := c0, out := Outcome.panicked }
  | (some gitClient, none) =>
    let getRepoArgs : GetRepositoriesArgs := { Project := some g.teamProject }
    let c1 := c0 ++ [Call.GetRepositories ctx getRepoArgs]
    match gitClient.GetRepositories ctx getRepoArgs with
    | (_, some err) => { calls := c1, out := Outcome.ret (none, some err) }
    | (none, none) => { calls := c1, out := Outcome.panicked }
    | (some azureRepos, none) =>
      match listReposLoop g azureRepos [] with
      | Outcome.ret repos => { calls := c1, out := Outcome.ret (some repos, none) }
      | Outcome.panicked => { calls := c1, out := Outcome.panicked }

/-- The arguments `RepoHasPath` passes to `GetItem`. -/
def getItemArgsOf (g : AzureDevopsProvider) (repo : Repository) (path : String) : GetItemArgs :=
  let idAsString := sprintfV repo.RepositoryId
  let branchName := repo.Branch
  { RepositoryId := some idAsString,
    Project := some g.teamProject,
    Path := some path,
    VersionDescriptor := some { Version := some branchName } }

/-- The error branch of `RepoHasPath` (the body of `if err != nil`). -/
def classifyGetItemError (err : GoError) : Outcome (Bool × Option GoError) :=
  match err with
  | GoError.wrapped wrappedError =>
    match wrappedError.TypeKey with
    | none => Outcome.panicked
    | some typeKey =>
      if typeKey = "GitItemNotFoundException" then Outcome.ret (false, none)
      else Outcome.ret (false, some err)
  | _ => Outcome.ret (false, some err)

/-- The method `RepoHasPath(ctx, repo, path)`. -/
def RepoHasPath (env : Backend) (g : AzureDevopsProvider) (ctx : Context)
    (repo : Repository) (path : String) : Exec (Bool × Option GoError) :=
  let c0 := [Call.gitNewClient ctx g.connection]
  match env.gitNewClient ctx g.connection with
  | (_, some err) => { calls := c0, out := Outcome.ret (false, some err) }
  | (none, none) => { calls := c0, out := Outcome.panicked }
  | (some gitClient, none) =>
    let getItemArgs := getItemArgsOf g repo path
    let c1 := c0 ++ [Call.GetItem ctx getItemArgs]
    match gitClient.GetItem ctx getItemArgs with
    | (_, some err) => { calls := c1, out := classifyGetItemError err }
    | (_, none) => { calls := c1, out := Outcome.ret (true, none) }

/-- The loop of `GetBranches`: appends one `Repository` per backend branch to
`repos`; dereferencing a nil `Name`, `Commit` or `CommitId` panics. -/
def getBranchesLoop (repo : Repository) :
    List GitBranchStats → List Repository → Outcome (List Repository)
  | [], repos => Outcome.ret repos
  | azureBranch :: rest, repos =>
    match azureBranch.Name, azureBranch.Commit with
    | some name, some commit =>
      match commit.CommitId with
      | some commitId =>
        getBranchesLoop repo rest
          (repos ++ [{ Branch := name,
                       SHA := commitId,
                       Organization := repo.Organization,
                       Repository := repo.Repository,
                       URL := repo.URL,
                       Labels := some [],
                       RepositoryId := repo.RepositoryId }])
      | none => Outcome.panicked
    | _, _ => Outcome.panicked

/-- The method `GetBranches(ctx, repo)`. -/
def GetBranches (env : Backend) (g : AzureDevopsProvider) (ctx : Context)
    (repo : Repository) : Exec (Option (List Repository) × Option GoError) :=
  let c0 := [Call.gitNewClient ctx g.connection]
  match env.gitNewClient ctx g.connection with
  | (_, some err) => { calls := c0, out := Outcome.ret (none, some err) }
  | (none, none) => { calls := c0, out := Outcome.panicked }
  | (some gitClient, none) =>
    let getBranchesRequest : GetBranchesArgs :=
      { RepositoryId := some repo.Repository, Project := some g.teamProject }
    let c1 := c0 ++ [Call.GetBranches ctx getBranchesRequest]
    match gitClient.GetBranches ctx getBranchesRequest with
    | (_, some err) => { calls := c1, out := Outcome.ret (none, some err) }
    | (none, none) => { calls := c1, out := Outcome.panicked }
    | (some branches, none) =>
      match getBranchesLoop repo branches [] with
      | Outcome.ret repos => { calls := c1, out := Outcome.ret (some repos, none) }
      | Outcome.panicked => { calls := c1, out := Outcome.panicked }

/-! ## Sample values used to exercise the definitions -/

/-- A context value. -/
def ctx0 : Context := { id := 0 }

/-- The connection the sample backends build: the URL and token as given (the
sample URLs are lower-case without a trailing slash). -/
def patConnection (url : String) (pat : String) : Connection :=
  { BaseUrl := url, pat := pat }

/-- A provider as `NewAzureDevopsProvider` builds it for organization `acme`. -/
def acmeProvider : AzureDevopsProvider :=
  { client := some { handle := 1 },
    connection := some (patConnection "https://dev.azure.com/acme" "s3cret"),
    organization := "acme",
    teamProject := "platform",
    accessToken := "s3cret" }

/-- A repository-level entry as `ListRepos` produces it. -/
def svcRepo : Repository :=
  { Organization := "acme",
    Repository := "svc",
    URL := "https://dev.azure.com/acme/platform/_git/svc",
    Branch := "refs/heads/main",
    SHA := "",
    Labels := some [],
    RepositoryId := RepositoryIdValue.uuidPtr (some { canonical := "0b1f7a52-8d0e-4d2c-9a3e-5f6c7d8e9f10" }) }

/-- A git client whose three methods answer with the given pairs. -/
def stubClient (repos : Option (List GitRepository) × Option GoError)
    (item : Option GitItem × Option GoError)
    (branches : Option (List GitBranchStats) × Option GoError) : GitClient :=
  { GetRepositories := fun _ _ => repos,
    GetItem := fun _ _ => item,
    GetBranches := fun _ _ => branches }

/-- A backend whose constructors succeed and hand out the given git client. -/
def backendWith (c : GitClient) : Backend :=
  { NewPatConnection := patConnection,
    coreNewClient := fun _ _ => (some { handle := 1 }, none),
    gitNewClient := fun _ _ => (some c, none) }

/-- A backend whose git client constructor fails with the given error. -/
def backendGitFails (e : GoError) : Backend :=
  { NewPatConnection := patConnection,
    coreNewClient := fun _ _ => (some { handle := 1 }, none),
    gitNewClient := fun _ _ => (none, some e) }

/-- The backend error for a missing item: a `WrappedError` value with the
not-found type key. -/
def itemNotFound : GoError :=
  GoError.wrapped
    { Message := some "TF401174: The item could not be found in the repository.",
      TypeKey := some "GitItemNotFoundException",
      StatusCode := some 404 }

/-- A `WrappedError` value decoded from a response body without a `typeKey`. -/
def errorWithoutTypeKey : GoError :=
  GoError.wrapped
    { Message := some "The request is invalid.",
      TypeKey := none,
      StatusCode := some 400 }

/-! ## Relations between backend data and results; further sample values -/

/-- How an entry `E` of a `GetBranches` result relates to the backend branch `b`
it was built from and to the input repository `repo`. -/
def BranchEntryOf (repo : Repository) (b : GitBranchStats) (E : Repository) : Prop :=
  b.Name = some E.Branch ∧
  (∃ commit, b.Commit = some commit ∧ commit.CommitId = some E.SHA) ∧
  E.Organization = repo.Organization ∧
  E.Repository = repo.Repository ∧
  E.URL = repo.URL ∧
  E.Labels = some [] ∧
  E.RepositoryId = repo.RepositoryId

/-- A backend branch whose `Name`, `Commit` and `Commit.CommitId` are all set. -/
def GitBranchStats.Complete (b : GitBranchStats) : Prop :=
  ∃ name commit sha, b.Name = some name ∧ b.Commit = some commit ∧ commit.CommitId = some sha

/-- The backend branches `main` (head `abc123`) and `dev` (head `def456`). -/
def mainDevBranches : List GitBranchStats :=
  [{ Name := some "main", Commit := some { CommitId := some "abc123" } },
   { Name := some "dev", Commit := some { CommitId := some "def456" } }]

/-- A backend whose branch listing answers `mainDevBranches`. -/
def mainDevBackend : Backend :=
  backendWith (stubClient (none, none) (none, none) (some mainDevBranches, none))

/-- The backend branches `main` (head `abc123`) and `dev`, the latter reported
without its head commit. -/
def branchesWithoutCommit : List GitBranchStats :=
  [{ Name := some "main", Commit := some { CommitId := some "abc123" } },
   { Name := some "dev", Commit := none }]

/-- The repository `svcRepo` carrying a label. -/
def labelledRepo : Repository :=
  { svcRepo with Labels := some ["team-a"] }

/-- How an entry `E` of a `ListRepos` result relates to the backend repository
`a` it was built from and to the provider `g`. -/
def RepoEntryOf (g : AzureDevopsProvider) (a : GitRepository) (E : Repository) : Prop :=
  a.Name = some E.Repository ∧
  a.RemoteUrl = some E.URL ∧
  a.DefaultBranch = some E.Branch ∧
  E.RepositoryId = RepositoryIdValue.uuidPtr a.Id ∧
  E.Organization = g.organization ∧
  E.SHA = "" ∧
  E.Labels = some []

/-- A backend repository whose `Name`, `RemoteUrl` and `DefaultBranch` are set. -/
def GitRepository.Complete (a : GitRepository) : Prop :=
  ∃ name url branch, a.Name = some name ∧ a.RemoteUrl = some url ∧ a.DefaultBranch = some branch

/-- A backend repository without a default branch (a repository with no commit
yet). -/
def emptyAzureRepo : GitRepository :=
  { Id := some { canonical := "7c2d4e10-3b5a-4f6e-8a9b-0c1d2e3f4a5b" },
    Name := some "scratch",
    RemoteUrl := some "https://dev.azure.com/acme/platform/_git/scratch",
    DefaultBranch := none }

/-- A backend repository with all fields set. -/
def svcAzureRepo : GitRepository :=
  { Id := some { canonical := "0b1f7a52-8d0e-4d2c-9a3e-5f6c7d8e9f10" },
    Name := some "svc",
    RemoteUrl := some "https://dev.azure.com/acme/platform/_git/svc",
    DefaultBranch := some "refs/heads/main" }

/-- An authentication failure reported by the SDK as a non-wrapped error. -/
def unauthorized : GoError :=
  GoError.other "*errors.errorString" "401 Unauthorized"

/-- A backend whose core client constructor fails with `unauthorized`. -/
def backendCoreFails : Backend :=
  { NewPatConnection := patConnection,
    coreNewClient := fun _ _ => (none, some unauthorized),
    gitNewClient := fun _ _ => (none, some unauthorized) }

/-! ## RepoHasPath -/

theorem classifyGetItemError_false_nil (err : GoError) :
    classifyGetItemError err = Outcome.ret (false, none) ↔
      ∃ w, err = GoError.wrapped w ∧ w.TypeKey = some "GitItemNotFoundException" := by
  cases err with
  | wrapped w =>
    rcases hk : w.TypeKey with _ | k
    · simp [classifyGetItemError, hk]
    · by_cases hkey : k = "GitItemNotFoundException"
      · simp [classifyGetItemError, hk, hkey]
      · simp [classifyGetItemError, hk, hkey]
  | errorString m => simp [classifyGetItemError]
  | wrappedPtr w => simp [classifyGetItemError]
  | other t m => simp [classifyGetItemError]

theorem classifyGetItemError_not_true (err : GoError) (e : Option GoError) :
    classifyGetItemError err ≠ Outcome.ret (true, e) := by
  cases err with
  | wrapped w =>
    rcases hk : w.TypeKey with _ | k
    · simp [classifyGetItemError, hk]
    · by_cases hkey : k = "GitItemNotFoundException"
      · simp [classifyGetItemError, hk, hkey]
      · simp [classifyGetItemError, hk, hkey]
  | errorString m => simp [classifyGetItemError]
  | wrappedPtr w => simp [classifyGetItemError]
  | other t m => simp [classifyGetItemError]

/-- C1: `RepoHasPath` returns `(false, nil)` exactly when the git client was
created and `GetItem` (called with the repository id, project, path and branch
of the request) failed with a `WrappedError` value whose `TypeKey` is
`GitItemNotFoundException`. -/
theorem RepoHasPath_false_nil_iff (env : Backend) (g : AzureDevopsProvider) (ctx : Context)
    (repo : Repository) (path : String) :
    (RepoHasPath env g ctx repo path).out = Outcome.ret (false, none) ↔
      ∃ gitClient item w,
        env.gitNewClient ctx g.connection = (some gitClient, none) ∧
        gitClient.GetItem ctx (getItemArgsOf g repo path) = (item, some (GoError.wrapped w)) ∧
        w.TypeKey = some "GitItemNotFoundException" := by
  rcases hc : env.gitNewClient ctx g.connection with ⟨_ | c, _ | e⟩
  · simp [RepoHasPath, hc]
  · simp [RepoHasPath, hc]
  · rcases hi : c.GetItem ctx (getItemArgsOf g repo path) with ⟨item, _ | err⟩
    · simp [RepoHasPath, hc, hi]
    · simp only [RepoHasPath, hc, hi, classifyGetItemError_false_nil]
      constructor
      · rintro ⟨w, rfl, hw⟩
        exact ⟨c, item, w, rfl, hi, hw⟩
      · rintro ⟨c2, item2, w, h1, h2, hw⟩
        simp only [Prod.mk.injEq, Option.some.injEq] at h1
        obtain ⟨rfl, -⟩ := h1
        rw [hi] at h2
        simp only [Prod.mk.injEq, Option.some.injEq] at h2
        exact ⟨w, h2.2, hw⟩
  · simp [RepoHasPath, hc]

/-- C1 at a concrete request: a missing path yields `(false, nil)`. -/
theorem RepoHasPath_false_nil_iff_witness :
    (RepoHasPath (backendWith (stubClient (none, none) (none, some itemNotFound) (none, none)))
        acmeProvider ctx0 svcRepo "definitely-does-not-exist-xyz").out
      = Outcome.ret (false, none) :=
  (RepoHasPath_false_nil_iff
      (backendWith (stubClient (none, none) (none, some itemNotFound) (none, none)))
      acmeProvider ctx0 svcRepo "definitely-does-not-exist-xyz").mpr
    ⟨stubClient (none, none) (none, some itemNotFound) (none, none), none,
      { Message := some "TF401174: The item could not be found in the repository.",
        TypeKey := some "GitItemNotFoundException",
        StatusCode := some 404 },
      rfl, rfl, rfl⟩

/-- Every error of git client creation is returned unchanged with `false`, and so
is every `GetItem` error that is not a `WrappedError` value or that carries a
type key other than `GitItemNotFoundException`. -/
theorem RepoHasPath_propagates (env : Backend) (g : AzureDevopsProvider) (ctx : Context)
    (repo : Repository) (path : String) (e : GoError) :
    (∀ c, env.gitNewClient ctx g.connection = (c, some e) →
      (RepoHasPath env g ctx repo path).out = Outcome.ret (false, some e)) ∧
    (∀ gitClient item, env.gitNewClient ctx g.connection = (some gitClient, none) →
      gitClient.GetItem ctx (getItemArgsOf g repo path) = (item, some e) →
      ((∀ w, e ≠ GoError.wrapped w) ∨
        ∃ w k, e = GoError.wrapped w ∧ w.TypeKey = some k ∧ k ≠ "GitItemNotFoundException") →
      (RepoHasPath env g ctx repo path).out = Outcome.ret (false, some e)) := by
  refine ⟨?_, ?_⟩
  · intro c hc
    simp [RepoHasPath, hc]
  · intro gitClient item hc hi hcase
    simp only [RepoHasPath, hc, hi]
    rcases hcase with hnw | ⟨w, k, rfl, hk, hne⟩
    · cases e with
      | wrapped w => exact absurd rfl (hnw w)
      | errorString m => simp [classifyGetItemError]
      | wrappedPtr w => simp [classifyGetItemError]
      | other t m => simp [classifyGetItemError]
    · simp [classifyGetItemError, hk, hne]

/-- C2 (failing input): when `GetItem` fails with a `WrappedError` value that
carries no `TypeKey`, `RepoHasPath` dereferences the nil `TypeKey` and panics;
it does not return `(false, err)`. -/
theorem RepoHasPath_panics_without_typeKey :
    (RepoHasPath (backendWith (stubClient (none, none) (none, some errorWithoutTypeKey) (none, none)))
        acmeProvider ctx0 svcRepo "README.md").out = Outcome.panicked := by
  rfl

/-- C3: `RepoHasPath` returns `(true, nil)` exactly when the git client was
created and `GetItem`, called with the repository id, project, path and branch
of the request, returned no error; and it never returns `true` with an error. -/
theorem RepoHasPath_true_iff (env : Backend) (g : AzureDevopsProvider) (ctx : Context)
    (repo : Repository) (path : String) :
    ((RepoHasPath env g ctx repo path).out = Outcome.ret (true, none) ↔
      ∃ gitClient item,
        env.gitNewClient ctx g.connection = (some gitClient, none) ∧
        gitClient.GetItem ctx (getItemArgsOf g repo path) = (item, none)) ∧
    (∀ e, (RepoHasPath env g ctx repo path).out ≠ Outcome.ret (true, some e)) ∧
    ((RepoHasPath env g ctx repo path).out = Outcome.ret (true, none) →
      (RepoHasPath env g ctx repo path).calls =
        [Call.gitNewClient ctx g.connection,
         Call.GetItem ctx
           { RepositoryId := some (sprintfV repo.RepositoryId),
             Project := some g.teamProject,
             Path := some path,
             VersionDescriptor := some { Version := some repo.Branch } }]) := by
  rcases hc : env.gitNewClient ctx g.connection with ⟨_ | c, _ | e⟩
  · simp [RepoHasPath, hc]
  · simp [RepoHasPath, hc]
  · rcases hi : c.GetItem ctx (getItemArgsOf g repo path) with ⟨item, _ | err⟩
    · refine ⟨?_, ?_, ?_⟩
      · simp only [RepoHasPath, hc, hi, true_iff]
        exact ⟨c, item, rfl, hi⟩
      · simp [RepoHasPath, hc, hi]
      · intro _
        simp only [RepoHasPath, hc, hi]
        simp [getItemArgsOf]
    · have hne := classifyGetItemError_not_true err
      refine ⟨?_, ?_, ?_⟩
      · simp only [RepoHasPath, hc, hi]
        constructor
        · intro h
          exact absurd h (hne none)
        · rintro ⟨c2, item2, h1, h2⟩
          simp only [Prod.mk.injEq, Option.some.injEq] at h1
          obtain ⟨rfl, -⟩ := h1
          rw [hi] at h2
          simp at h2
      · intro e
        simp only [RepoHasPath, hc, hi]
        exact hne (some e)
      · intro h
        simp only [RepoHasPath, hc, hi] at h
        exact absurd h (hne none)
  · simp [RepoHasPath, hc]

/-- C3 at a concrete request: an existing path yields `(true, nil)`. -/
theorem RepoHasPath_true_iff_witness :
    (RepoHasPath (backendWith (stubClient (none, none) (some { Path := some "/" }, none) (none, none)))
        acmeProvider ctx0 svcRepo "/").out = Outcome.ret (true, none) :=
  (RepoHasPath_true_iff
      (backendWith (stubClient (none, none) (some { Path := some "/" }, none) (none, none)))
      acmeProvider ctx0 svcRepo "/").1.mpr
    ⟨stubClient (none, none) (some { Path := some "/" }, none) (none, none),
      some { Path := some "/" }, rfl, rfl⟩

/-! ## GetBranches -/

theorem getBranchesLoop_ret (repo : Repository) (bs : List GitBranchStats) :
    ∀ (acc rs : List Repository), getBranchesLoop repo bs acc = Outcome.ret rs →
      ∃ es, rs = acc ++ es ∧ List.Forall₂ (BranchEntryOf repo) bs es := by
  induction bs with
  | nil =>
    intro acc rs h
    simp only [getBranchesLoop, Outcome.ret.injEq] at h
    exact ⟨[], by simp [h], List.Forall₂.nil⟩
  | cons b rest ih =>
    intro acc rs h
    rcases hn : b.Name with _ | name
    · simp [getBranchesLoop, hn] at h
    · rcases hcm : b.Commit with _ | commit
      · simp [getBranchesLoop, hn, hcm] at h
      · rcases hid : commit.CommitId with _ | sha
        · simp [getBranchesLoop, hn, hcm, hid] at h
        · simp only [getBranchesLoop, hn, hcm, hid] at h
          obtain ⟨es, hrs, hes⟩ := ih _ _ h
          refine ⟨{ Branch := name, SHA := sha, Organization := repo.Organization,
                    Repository := repo.Repository, URL := repo.URL, Labels := some [],
                    RepositoryId := repo.RepositoryId } :: es, by simp [hrs],
                  List.Forall₂.cons ?_ hes⟩
          exact ⟨hn, ⟨commit, hcm, hid⟩, rfl, rfl, rfl, rfl, rfl⟩

theorem getBranchesLoop_complete (repo : Repository) (bs : List GitBranchStats) :
    ∀ (acc : List Repository), (∀ b ∈ bs, b.Complete) →
      ∃ rs, getBranchesLoop repo bs acc = Outcome.ret rs := by
  induction bs with
  | nil =>
    intro acc _
    exact ⟨acc, rfl⟩
  | cons b rest ih =>
    intro acc hall
    obtain ⟨name, commit, sha, hn, hcm, hid⟩ := hall b (List.mem_cons_self b rest)
    obtain ⟨rs, hrs⟩ := ih
      (acc ++ [{ Branch := name, SHA := sha, Organization := repo.Organization,
                 Repository := repo.Repository, URL := repo.URL, Labels := some [],
                 RepositoryId := repo.RepositoryId }])
      (fun b2 hb2 => hall b2 (List.mem_cons_of_mem b hb2))
    exact ⟨rs, by simp only [getBranchesLoop, hn, hcm, hid]; exact hrs⟩

theorem forall₂_mem_right {α β : Type} {R : α → β → Prop} {l : List α} {es : List β}
    (h : List.Forall₂ R l es) : ∀ E ∈ es, ∃ b ∈ l, R b E := by
  induction h with
  | nil => intro E hE; cases hE
  | cons hab _ ih =>
    intro E hE
    rcases List.mem_cons.mp hE with rfl | hE2
    · exact ⟨_, List.mem_cons_self _ _, hab⟩
    · obtain ⟨b, hb, hR⟩ := ih E hE2
      exact ⟨b, List.mem_cons_of_mem _ hb, hR⟩

/-- A successful `GetBranches` made both SDK calls successfully and its result
is related entry by entry, in order, to the backend branch list. -/
theorem GetBranches_ret (env : Backend) (g : AzureDevopsProvider) (ctx : Context)
    (repo : Repository) (rs : Option (List Repository)) :
    (GetBranches env g ctx repo).out = Outcome.ret (rs, none) →
      ∃ gitClient branches es,
        env.gitNewClient ctx g.connection = (some gitClient, none) ∧
        gitClient.GetBranches ctx
          { RepositoryId := some repo.Repository, Project := some g.teamProject }
          = (some branches, none) ∧
        rs = some es ∧ List.Forall₂ (BranchEntryOf repo) branches es := by
  intro h
  rcases hc : env.gitNewClient ctx g.connection with ⟨_ | c, _ | e⟩
  · simp [GetBranches, hc] at h
  · simp [GetBranches, hc] at h
  · rcases hb : c.GetBranches ctx
        { RepositoryId := some repo.Repository, Project := some g.teamProject }
      with ⟨_ | branches, _ | err⟩
    · simp [GetBranches, hc, hb] at h
    · simp [GetBranches, hc, hb] at h
    · rcases hl : getBranchesLoop repo branches [] with repos | _
      · simp only [GetBranches, hc, hb, hl, Outcome.ret.injEq, Prod.mk.injEq, and_true] at h
        obtain ⟨es, hes, hrel⟩ := getBranchesLoop_ret repo branches [] repos hl
        simp only [List.nil_append] at hes
        subst hes
        exact ⟨c, branches, repos, rfl, hb, h.symm, hrel⟩
      · simp [GetBranches, hc, hb, hl] at h
    · simp [GetBranches, hc, hb] at h
  · simp [GetBranches, hc] at h

/-- C4: every entry of a successful `GetBranches(R)` result has `Organization`,
`Repository`, `URL` and `RepositoryId` equal to those of `R`. -/
theorem GetBranches_identity_fields (env : Backend) (g : AzureDevopsProvider) (ctx : Context)
    (R : Repository) (rs : List Repository)
    (h : (GetBranches env g ctx R).out = Outcome.ret (some rs, none)) :
    ∀ E ∈ rs, E.Organization = R.Organization ∧ E.Repository = R.Repository ∧
      E.URL = R.URL ∧ E.RepositoryId = R.RepositoryId := by
  obtain ⟨_, branches, es, _, _, hrs, hrel⟩ := GetBranches_ret env g ctx R (some rs) h
  simp only [Option.some.injEq] at hrs
  subst hrs
  intro E hE
  obtain ⟨b, _, hb⟩ := forall₂_mem_right hrel E hE
  exact ⟨hb.2.2.1, hb.2.2.2.1, hb.2.2.2.2.1, hb.2.2.2.2.2.2⟩

/-- C4 on the branches `main` and `dev` of `svcRepo`. -/
theorem GetBranches_identity_fields_witness :
    (GetBranches mainDevBackend acmeProvider ctx0 svcRepo).out
        = Outcome.ret (some [{ svcRepo with Branch := "main", SHA := "abc123" },
                             { svcRepo with Branch := "dev", SHA := "def456" }], none) ∧
      ∀ E ∈ [{ svcRepo with Branch := "main", SHA := "abc123" },
             { svcRepo with Branch := "dev", SHA := "def456" }],
        E.Organization = svcRepo.Organization ∧ E.Repository = svcRepo.Repository ∧
          E.URL = svcRepo.URL ∧ E.RepositoryId = svcRepo.RepositoryId :=
  ⟨rfl, GetBranches_identity_fields mainDevBackend acmeProvider ctx0 svcRepo _ rfl⟩

/-- C5 (counterexample): for an input repository carrying the label `team-a`,
`GetBranches` succeeds and its first entry has empty `Labels`, not the input
labels. -/
theorem GetBranches_labels_not_copied :
    ∃ rs E, (GetBranches mainDevBackend acmeProvider ctx0 labelledRepo).out
        = Outcome.ret (some rs, none) ∧
      E ∈ rs ∧ E.Labels = some [] ∧ labelledRepo.Labels = some ["team-a"] ∧
      E.Labels ≠ labelledRepo.Labels :=
  ⟨[{ labelledRepo with Branch := "main", SHA := "abc123", Labels := some [] },
    { labelledRepo with Branch := "dev", SHA := "def456", Labels := some [] }],
   { labelledRepo with Branch := "main", SHA := "abc123", Labels := some [] },
   rfl, List.mem_cons_self _ _, rfl, rfl, by decide⟩

/-- C5 (amended): every entry `E` of a successful `GetBranches(R)` result is `R`
with `Branch` and `SHA` replaced by the entry's own and `Labels` replaced by the
empty non-nil sequence; `Organization`, `Repository`, `URL` and `RepositoryId`
are copied unchanged. -/
theorem GetBranches_entry_frame (env : Backend) (g : AzureDevopsProvider) (ctx : Context)
    (R : Repository) (rs : List Repository)
    (h : (GetBranches env g ctx R).out = Outcome.ret (some rs, none)) :
    ∀ E ∈ rs, E = { R with Branch := E.Branch, SHA := E.SHA, Labels := some [] } := by
  obtain ⟨_, branches, es, _, _, hrs, hrel⟩ := GetBranches_ret env g ctx R (some rs) h
  simp only [Option.some.injEq] at hrs
  subst hrs
  intro E hE
  obtain ⟨b, _, hb⟩ := forall₂_mem_right hrel E hE
  obtain ⟨_, _, h1, h2, h3, h4, h5⟩ := hb
  cases E
  simp_all

/-- C5 (amended) on the branches `main` and `dev` of the labelled repository. -/
theorem GetBranches_entry_frame_witness :
    (GetBranches mainDevBackend acmeProvider ctx0 labelledRepo).out
        = Outcome.ret (some [{ labelledRepo with Branch := "main", SHA := "abc123", Labels := some [] },
                             { labelledRepo with Branch := "dev", SHA := "def456", Labels := some [] }],
                       none) ∧
      ∀ E ∈ [{ labelledRepo with Branch := "main", SHA := "abc123", Labels := some [] },
             { labelledRepo with Branch := "dev", SHA := "def456", Labels := some [] }],
        E = { labelledRepo with Branch := E.Branch, SHA := E.SHA, Labels := some [] } :=
  ⟨rfl, GetBranches_entry_frame mainDevBackend acmeProvider ctx0 labelledRepo _ rfl⟩

/-- When the git client is created and the backend returns a list of `n`
branches, each carrying a name and a head commit id, `GetBranches` makes exactly
the two SDK calls and succeeds with `n` entries in the backend order, the i-th
entry having the i-th branch name as `Branch` and its head commit id as `SHA`. -/
theorem GetBranches_entries (env : Backend) (g : AzureDevopsProvider) (ctx : Context)
    (repo : Repository) (gitClient : GitClient) (branches : List GitBranchStats)
    (hc : env.gitNewClient ctx g.connection = (some gitClient, none))
    (hb : gitClient.GetBranches ctx
            { RepositoryId := some repo.Repository, Project := some g.teamProject }
          = (some branches, none))
    (hwf : ∀ b ∈ branches, b.Complete) :
    ∃ rs, GetBranches env g ctx repo =
        { calls := [Call.gitNewClient ctx g.connection,
                    Call.GetBranches ctx
                      { RepositoryId := some repo.Repository, Project := some g.teamProject }],
          out := Outcome.ret (some rs, none) } ∧
      rs.length = branches.length ∧
      ∀ (i : Nat) (hi : i < branches.length) (hj : i < rs.length),
        (branches.get ⟨i, hi⟩).Name = some (rs.get ⟨i, hj⟩).Branch ∧
        (branches.get ⟨i, hi⟩).Commit.bind GitCommitRef.CommitId = some (rs.get ⟨i, hj⟩).SHA := by
  obtain ⟨rs, hrs⟩ := getBranchesLoop_complete repo branches [] hwf
  obtain ⟨es, hes, hrel⟩ := getBranchesLoop_ret repo branches [] rs hrs
  simp only [List.nil_append] at hes
  subst hes
  refine ⟨rs, ?_, hrel.length_eq.symm, ?_⟩
  · simp [GetBranches, hc, hb, hrs]
  · intro i hi hj
    have hrel_i := List.Forall₂.get hrel hi hj
    obtain ⟨hname, ⟨commit, hcm, hid⟩, _⟩ := hrel_i
    exact ⟨hname, by rw [hcm]; exact hid⟩

/-- The branches `main` (`abc123`) and `dev` (`def456`) give two entries with
those names and shas. -/
theorem GetBranches_entries_witness :
    (GetBranches mainDevBackend acmeProvider ctx0 svcRepo).out
        = Outcome.ret (some [{ svcRepo with Branch := "main", SHA := "abc123" },
                             { svcRepo with Branch := "dev", SHA := "def456" }], none) ∧
    ∃ rs, GetBranches mainDevBackend acmeProvider ctx0 svcRepo =
        { calls := [Call.gitNewClient ctx0 acmeProvider.connection,
                    Call.GetBranches ctx0
                      { RepositoryId := some svcRepo.Repository,
                        Project := some acmeProvider.teamProject }],
          out := Outcome.ret (some rs, none) } ∧
      rs.length = mainDevBranches.length ∧
      ∀ (i : Nat) (hi : i < mainDevBranches.length) (hj : i < rs.length),
        (mainDevBranches.get ⟨i, hi⟩).Name = some (rs.get ⟨i, hj⟩).Branch ∧
        (mainDevBranches.get ⟨i, hi⟩).Commit.bind GitCommitRef.CommitId
          = some (rs.get ⟨i, hj⟩).SHA :=
  ⟨rfl,
   GetBranches_entries mainDevBackend acmeProvider ctx0 svcRepo
     (stubClient (none, none) (none, none) (some mainDevBranches, none)) mainDevBranches rfl rfl
     (by
       intro b hb
       simp only [mainDevBranches, List.mem_cons, List.mem_singleton, List.not_mem_nil,
         or_false] at hb
       rcases hb with rfl | rfl
       · exact ⟨"main", { CommitId := some "abc123" }, "abc123", rfl, rfl, rfl⟩
       · exact ⟨"dev", { CommitId := some "def456" }, "def456", rfl, rfl, rfl⟩)⟩

/-- C6 (failing input): when the backend list holds a branch without a head
commit, `GetBranches` dereferences the nil `Commit` and panics; it returns no
list at all, although both SDK calls succeeded with a list of two branches. -/
theorem GetBranches_panics_without_commit :
    (GetBranches (backendWith (stubClient (none, none) (none, none)
        (some branchesWithoutCommit, none))) acmeProvider ctx0 svcRepo).out
      = Outcome.panicked := by
  rfl

/-! ## ListRepos -/

theorem listReposLoop_ret (g : AzureDevopsProvider) (l : List GitRepository) :
    ∀ (acc rs : List Repository), listReposLoop g l acc = Outcome.ret rs →
      ∃ es, rs = acc ++ es ∧ List.Forall₂ (RepoEntryOf g) l es := by
  induction l with
  | nil =>
    intro acc rs h
    simp only [listReposLoop, Outcome.ret.injEq] at h
    exact ⟨[], by simp [h], List.Forall₂.nil⟩
  | cons a rest ih =>
    intro acc rs h
    rcases hn : a.Name with _ | name
    · simp [listReposLoop, hn] at h
    · rcases hu : a.RemoteUrl with _ | url
      · simp [listReposLoop, hn, hu] at h
      · rcases hd : a.DefaultBranch with _ | branch
        · simp [listReposLoop, hn, hu, hd] at h
        · simp only [listReposLoop, hn, hu, hd] at h
          obtain ⟨es, hrs, hes⟩ := ih _ _ h
          refine ⟨{ Organization := g.organization, Repository := name, URL := url,
                    Branch := branch, SHA := "", Labels := some [],
                    RepositoryId := RepositoryIdValue.uuidPtr a.Id } :: es, by simp [hrs],
                  List.Forall₂.cons ?_ hes⟩
          exact ⟨hn, hu, hd, rfl, rfl, rfl, rfl⟩

theorem listReposLoop_complete (g : AzureDevopsProvider) (l : List GitRepository) :
    ∀ (acc : List Repository), (∀ a ∈ l, a.Complete) →
      ∃ rs, listReposLoop g l acc = Outcome.ret rs := by
  induction l with
  | nil =>
    intro acc _
    exact ⟨acc, rfl⟩
  | cons a rest ih =>
    intro acc hall
    obtain ⟨name, url, branch, hn, hu, hd⟩ := hall a (List.mem_cons_self a rest)
    obtain ⟨rs, hrs⟩ := ih
      (acc ++ [{ Organization := g.organization, Repository := name, URL := url,
                 Branch := branch, SHA := "", Labels := some [],
                 RepositoryId := RepositoryIdValue.uuidPtr a.Id }])
      (fun a2 ha2 => hall a2 (List.mem_cons_of_mem a ha2))
    exact ⟨rs, by simp only [listReposLoop, hn, hu, hd]; exact hrs⟩

/-- A successful `ListRepos` made both SDK calls successfully and its result is
related entry by entry, in order, to the backend repository list. -/
theorem ListRepos_ret (env : Backend) (g : AzureDevopsProvider) (ctx : Context)
    (cloneProtocol : String) (rs : Option (List Repository)) :
    (ListRepos env g ctx cloneProtocol).out = Outcome.ret (rs, none) →
      ∃ gitClient azureRepos es,
        env.gitNewClient ctx g.connection = (some gitClient, none) ∧
        gitClient.GetRepositories ctx { Project := some g.teamProject }
          = (some azureRepos, none) ∧
        rs = some es ∧ List.Forall₂ (RepoEntryOf g) azureRepos es := by
  intro h
  rcases hc : env.gitNewClient ctx g.connection with ⟨_ | c, _ | e⟩
  · simp [ListRepos, hc] at h
  · simp [ListRepos, hc] at h
  · rcases hb : c.GetRepositories ctx { Project := some g.teamProject }
      with ⟨_ | azureRepos, _ | err⟩
    · simp [ListRepos, hc, hb] at h
    · simp [ListRepos, hc, hb] at h
    · rcases hl : listReposLoop g azureRepos [] with repos | _
      · simp only [ListRepos, hc, hb, hl, Outcome.ret.injEq, Prod.mk.injEq, and_true] at h
        obtain ⟨es, hes, hrel⟩ := listReposLoop_ret g azureRepos [] repos hl
        simp only [List.nil_append] at hes
        subst hes
        exact ⟨c, azureRepos, repos, rfl, hb, h.symm, hrel⟩
      · simp [ListRepos, hc, hb, hl] at h
    · simp [ListRepos, hc, hb] at h
  · simp [ListRepos, hc] at h

/-- When the git client is created and the backend returns `n` repositories,
each carrying a name, a remote URL and a default branch, `ListRepos` succeeds
with `n` entries in the backend order, the i-th built from the i-th repository;
for `n = 0` the result is the empty non-nil sequence. -/
theorem ListRepos_entries (env : Backend) (g : AzureDevopsProvider) (ctx : Context)
    (cloneProtocol : String) (gitClient : GitClient) (azureRepos : List GitRepository)
    (hc : env.gitNewClient ctx g.connection = (some gitClient, none))
    (hb : gitClient.GetRepositories ctx { Project := some g.teamProject }
          = (some azureRepos, none))
    (hwf : ∀ a ∈ azureRepos, a.Complete) :
    ∃ rs, (ListRepos env g ctx cloneProtocol).out = Outcome.ret (some rs, none) ∧
      rs.length = azureRepos.length ∧
      List.Forall₂ (RepoEntryOf g) azureRepos rs ∧
      (azureRepos = [] → rs = []) := by
  obtain ⟨rs, hrs⟩ := listReposLoop_complete g azureRepos [] hwf
  obtain ⟨es, hes, hrel⟩ := listReposLoop_ret g azureRepos [] rs hrs
  simp only [List.nil_append] at hes
  subst hes
  refine ⟨rs, ?_, hrel.length_eq.symm, hrel, ?_⟩
  · simp [ListRepos, hc, hb, hrs]
  · intro hnil
    subst hnil
    cases hrel
    rfl

/-- C7 (failing input): when the backend list holds a repository without a
default branch, `ListRepos` dereferences the nil `DefaultBranch` and panics; it
returns no list at all, although both SDK calls succeeded. -/
theorem ListRepos_panics_without_default_branch :
    (ListRepos (backendWith (stubClient (some [svcAzureRepo, emptyAzureRepo], none)
        (none, none) (none, none))) acmeProvider ctx0 "https").out = Outcome.panicked := by
  rfl

/-- C8: every entry of a successful `ListRepos` result, on a provider returned
by `NewAzureDevopsProvider` for organization `org`, has `Organization = org`,
whatever the clone-protocol hint. -/
theorem ListRepos_organization (env1 env2 : Backend) (ctx1 ctx2 : Context)
    (accessToken org project cloneProtocol : String) (e : Option GoError)
    (g : AzureDevopsProvider) (rs : List Repository)
    (hnew : (NewAzureDevopsProvider env1 ctx1 accessToken org project).out
              = Outcome.ret (some g, e))
    (hlist : (ListRepos env2 g ctx2 cloneProtocol).out = Outcome.ret (some rs, none)) :
    ∀ R ∈ rs, R.Organization = org := by
  have hg : g.organization = org := by
    unfold NewAzureDevopsProvider at hnew
    by_cases ht : accessToken = ""
    · simp [ht] at hnew
    · simp only [ht, if_false] at hnew
      rcases hcc : env1.coreNewClient ctx1
          (env1.NewPatConnection ("https://dev.azure.com/" ++ org) accessToken) with ⟨cc, _ | err⟩
      · simp only [hcc, Outcome.ret.injEq, Prod.mk.injEq, Option.some.injEq] at hnew
        rw [← hnew.1]
      · simp [hcc] at hnew
  obtain ⟨_, azureRepos, es, _, _, hrs, hrel⟩ := ListRepos_ret env2 g ctx2 cloneProtocol (some rs) hlist
  simp only [Option.some.injEq] at hrs
  subst hrs
  intro R hR
  obtain ⟨a, _, ha⟩ := forall₂_mem_right hrel R hR
  rw [ha.2.2.2.2.1, hg]

/-- C8 on a provider constructed for `acme` and a backend with one repository. -/
theorem ListRepos_organization_witness :
    (NewAzureDevopsProvider
        (backendWith (stubClient (some [svcAzureRepo], none) (none, none) (none, none)))
        ctx0 "s3cret" "acme" "platform").out = Outcome.ret (some acmeProvider, none) ∧
    (ListRepos (backendWith (stubClient (some [svcAzureRepo], none) (none, none) (none, none)))
        acmeProvider ctx0 "ssh").out = Outcome.ret (some [svcRepo], none) ∧
    ∀ R ∈ [svcRepo], R.Organization = "acme" :=
  ⟨rfl, rfl,
   ListRepos_organization
     (backendWith (stubClient (some [svcAzureRepo], none) (none, none) (none, none)))
     (backendWith (stubClient (some [svcAzureRepo], none) (none, none) (none, none)))
     ctx0 ctx0 "s3cret" "acme" "platform" "ssh" none acmeProvider [svcRepo] rfl rfl⟩

/-! ## Error propagation of the listing operations -/

/-- C9: for `ListRepos` and for `GetBranches`, an error `e` of git client
creation, or of the backend listing call after the client was created, is
returned as it is together with the nil list. -/
theorem listing_errors_propagate (env : Backend) (g : AzureDevopsProvider) (ctx : Context)
    (cloneProtocol : String) (repo : Repository) (e : GoError) :
    (∀ c, env.gitNewClient ctx g.connection = (c, some e) →
      ListRepos env g ctx cloneProtocol =
          { calls := [Call.gitNewClient ctx g.connection],
            out := Outcome.ret (none, some e) } ∧
      GetBranches env g ctx repo =
          { calls := [Call.gitNewClient ctx g.connection],
            out := Outcome.ret (none, some e) }) ∧
    (∀ gitClient l, env.gitNewClient ctx g.connection = (some gitClient, none) →
      gitClient.GetRepositories ctx { Project := some g.teamProject } = (l, some e) →
      (ListRepos env g ctx cloneProtocol).out = Outcome.ret (none, some e)) ∧
    (∀ gitClient l, env.gitNewClient ctx g.connection = (some gitClient, none) →
      gitClient.GetBranches ctx
          { RepositoryId := some repo.Repository, Project := some g.teamProject } = (l, some e) →
      (GetBranches env g ctx repo).out = Outcome.ret (none, some e)) := by
  refine ⟨?_, ?_, ?_⟩
  · intro c hc
    simp [ListRepos, GetBranches, hc]
  · intro gitClient l hc hl
    simp [ListRepos, hc, hl]
  · intro gitClient l hc hl
    simp [GetBranches, hc, hl]

/-- C9 on concrete failures: client creation failing with `unauthorized`, and
each listing call failing with `unauthorized` while holding a list. -/
theorem listing_errors_propagate_witness :
    ((ListRepos (backendGitFails unauthorized) acmeProvider ctx0 "https").out
        = Outcome.ret (none, some unauthorized) ∧
      (GetBranches (backendGitFails unauthorized) acmeProvider ctx0 svcRepo).out
        = Outcome.ret (none, some unauthorized)) ∧
    (ListRepos (backendWith (stubClient (some [svcAzureRepo], some unauthorized)
        (none, none) (none, none))) acmeProvider ctx0 "https").out
        = Outcome.ret (none, some unauthorized) ∧
    (GetBranches (backendWith (stubClient (none, none) (none, none)
        (some mainDevBranches, some unauthorized))) acmeProvider ctx0 svcRepo).out
        = Outcome.ret (none, some unauthorized) :=
  ⟨⟨congrArg Exec.out
      ((listing_errors_propagate (backendGitFails unauthorized) acmeProvider ctx0 "https"
        svcRepo unauthorized).1 none rfl).1,
    congrArg Exec.out
      ((listing_errors_propagate (backendGitFails unauthorized) acmeProvider ctx0 "https"
        svcRepo unauthorized).1 none rfl).2⟩,
   (listing_errors_propagate
      (backendWith (stubClient (some [svcAzureRepo], some unauthorized) (none, none) (none, none)))
      acmeProvider ctx0 "https" svcRepo unauthorized).2.1
     (stubClient (some [svcAzureRepo], some unauthorized) (none, none) (none, none))
     (some [svcAzureRepo]) rfl rfl,
   (listing_errors_propagate
      (backendWith (stubClient (none, none) (none, none) (some mainDevBranches, some unauthorized)))
      acmeProvider ctx0 "https" svcRepo unauthorized).2.2
     (stubClient (none, none) (none, none) (some mainDevBranches, some unauthorized))
     (some mainDevBranches) rfl rfl⟩

/-! ## Provider construction -/

/-- C10: with an empty access token `NewAzureDevopsProvider` makes no SDK call
and returns no provider and the error `No access token provided`, whatever the
backend; with a non-empty token it builds the connection for
`https://dev.azure.com/<org>`, calls `core.NewClient` once, returns that
call's error when it has one, and otherwise a provider holding exactly the
given organization, project and token. -/
theorem NewAzureDevopsProvider_spec (env : Backend) (ctx : Context)
    (org project : String) :
    NewAzureDevopsProvider env ctx "" org project =
        { calls := [],
          out := Outcome.ret (none, some (GoError.errorString "No access token provided")) } ∧
    (∀ env2 : Backend, NewAzureDevopsProvider env2 ctx "" org project
        = NewAzureDevopsProvider env ctx "" org project) ∧
    (∀ accessToken : String, accessToken ≠ "" →
      (NewAzureDevopsProvider env ctx accessToken org project).calls =
          [Call.NewPatConnection ("https://dev.azure.com/" ++ org) accessToken,
           Call.coreNewClient ctx (env.NewPatConnection ("https://dev.azure.com/" ++ org) accessToken)] ∧
      (NewAzureDevopsProvider env ctx accessToken org project).out =
        match env.coreNewClient ctx (env.NewPatConnection ("https://dev.azure.com/" ++ org) accessToken) with
        | (_, some err) => Outcome.ret (none, some err)
        | (coreClient, none) =>
          Outcome.ret
            (some { client := coreClient,
                    connection := some (env.NewPatConnection ("https://dev.azure.com/" ++ org) accessToken),
                    organization := org,
                    teamProject := project,
                    accessToken := accessToken }, none)) := by
  refine ⟨?_, ?_, ?_⟩
  · simp [NewAzureDevopsProvider, fmtErrorf]
  · intro env2
    simp [NewAzureDevopsProvider]
  · intro accessToken ht
    rcases hcc : env.coreNewClient ctx
        (env.NewPatConnection ("https://dev.azure.com/" ++ org) accessToken) with ⟨cc, _ | err⟩
    · simp [NewAzureDevopsProvider, ht, hcc]
    · simp [NewAzureDevopsProvider, ht, hcc]

/-- C10 on concrete inputs: an empty token against a failing backend, a
non-empty token against a failing backend, and a non-empty token against a
working backend. -/
theorem NewAzureDevopsProvider_spec_witness :
    NewAzureDevopsProvider backendCoreFails ctx0 "" "acme" "platform" =
        { calls := [],
          out := Outcome.ret (none, some (GoError.errorString "No access token provided")) } ∧
    (NewAzureDevopsProvider backendCoreFails ctx0 "s3cret" "acme" "platform").out
        = Outcome.ret (none, some unauthorized) ∧
    (NewAzureDevopsProvider (backendWith (stubClient (none, none) (none, none) (none, none)))
        ctx0 "s3cret" "acme" "platform").out = Outcome.ret (some acmeProvider, none) :=
  ⟨(NewAzureDevopsProvider_spec backendCoreFails ctx0 "acme" "platform").1,
   ((NewAzureDevopsProvider_spec backendCoreFails ctx0 "acme" "platform").2.2
      "s3cret" (by decide)).2,
   ((NewAzureDevopsProvider_spec
      (backendWith (stubClient (none, none) (none, none) (none, none)))
      ctx0 "acme" "platform").2.2 "s3cret" (by decide)).2⟩

end ScmProvider
